import Mathlib

/-!
Shallow embedding of the pure bounding-box conversion pipeline of the
AI_YoutubeTumbnail repository:

* `scripts/Customvision_Predict_To_Labelstudio.py` — `convert_to_coco`
  (threshold filter, fractional→pixel box scaling) and
  `convert_to_labelstudio` (percentage re-projection with `round(·, 2)`,
  grouping by path key in an insertion-ordered dict);
* `scripts/Customvision_Upload_And_Train.py` — `convert_coco_to_azure_uploads`
  (region re-projection to [0,1] floats, grouping by file name).

Numbers are modelled exactly: Python floats become rationals (ℚ), pixel
dimensions become naturals.  Python dict-key lookups that can raise
`KeyError` become `Option`-returning functions, so a whole conversion that
can raise becomes an `Option`-valued function.
-/

namespace Thumb

/-- A fractional bounding box as returned by the detector
(`pred["boundingBox"]`): `left`, `top`, `width`, `height`, intended to lie
in [0,1] relative to the image dimensions. -/
structure BoundingBox where
  left : ℚ
  top : ℚ
  width : ℚ
  height : ℚ
  deriving DecidableEq, Repr

/-- One detector output (`pred` in the loop of `convert_to_coco`):
`tagName`, `probability`, `boundingBox`. -/
structure Prediction where
  tagName : String
  probability : ℚ
  boundingBox : BoundingBox
  deriving DecidableEq, Repr

/-- One value of the `LABEL_INFO` mapping: `{"id": …, "threshold": …}`. -/
structure LabelEntry where
  id : ℕ
  threshold : ℚ
  deriving DecidableEq, Repr

/-- The configured category mapping `LABEL_INFO` of
`Customvision_Predict_To_Labelstudio.py` (lines 36–41), as an ordered
association list mirroring the Python dict literal. -/
def LABEL_INFO : List (String × LabelEntry) :=
  [("브랜드/로고", ⟨1, 9/10⟩), ("인물", ⟨2, 9/10⟩),
   ("캐릭터", ⟨3, 9/10⟩), ("텍스트", ⟨4, 9/10⟩)]

/-- Lookup in a Python dict represented as the association list of its
bindings in insertion order; a dict built by a comprehension keeps the
last binding for a repeated key, so the reversed list is searched. -/
def dictFind {α β : Type} [DecidableEq α] (l : List (α × β)) (k : α) : Option β :=
  (l.reverse.find? (fun p => decide (p.1 = k))).map Prod.snd

/-- One image of the input batch of `convert_to_coco`: its base file name,
its PIL dimensions, and the predictions the Azure endpoint returned for it
(`predict_image` is an external HTTP call, so its responses are part of the
input here). -/
structure ImageInput where
  file_name : String
  width : ℕ
  height : ℕ
  predictions : List Prediction
  deriving DecidableEq, Repr

/-- An entry of `coco["images"]` (line 166–168). -/
structure CocoImage where
  id : ℕ
  file_name : String
  width : ℕ
  height : ℕ
  deriving DecidableEq, Repr

/-- An entry of `coco["annotations"]` (lines 185–195); `bbox` is the
4-list `[x, y, w, h]` as a 4-tuple. -/
structure CocoAnn where
  id : ℕ
  image_id : ℕ
  category_id : ℕ
  bbox : ℚ × ℚ × ℚ × ℚ
  area : ℚ
  iscrowd : ℕ
  score : ℚ
  deriving DecidableEq, Repr

/-- An entry of `coco["categories"]` (line 157). -/
structure CocoCategory where
  id : ℕ
  name : String
  deriving DecidableEq, Repr

/-- The COCO dictionary built by `convert_to_coco`. -/
structure Coco where
  images : List CocoImage
  anns : List CocoAnn
  categories : List CocoCategory
  deriving DecidableEq, Repr

/-- The `continue` condition of `convert_to_coco` lines 174–175:
`label not in LABEL_INFO or prob < LABEL_INFO[label]["threshold"]`,
with Python's short-circuit `or` (the threshold is only read when the
label is present). -/
def dropPred (li : List (String × LabelEntry)) (label : String) (prob : ℚ) : Bool :=
  match dictFind li label with
  | none => true
  | some e => decide (prob < e.threshold)

/-- The category-filter keep predicate: a detection survives iff the
`continue` of lines 174–175 does not fire. -/
def keepPred (li : List (String × LabelEntry)) (label : String) (prob : ℚ) : Bool :=
  !(dropPred li label prob)

/-- The fractional→pixel scaling of `convert_to_coco` lines 177–183:
`(x, y, w, h) = (left*width, top*height, width*width, height*height)`. -/
def normalizeBox (b : BoundingBox) (width height : ℕ) : ℚ × ℚ × ℚ × ℚ :=
  (b.left * width, b.top * height, b.width * width, b.height * height)

/-- The annotation dict appended at lines 185–195; `area = w*h` on the
scaled box, `iscrowd = 0`, `score` is the raw probability. -/
def mkAnn (annId imgId catId : ℕ) (b : BoundingBox) (score : ℚ) (w h : ℕ) : CocoAnn :=
  let n := normalizeBox b w h
  { id := annId, image_id := imgId, category_id := catId, bbox := n,
    area := n.2.2.1 * n.2.2.2, iscrowd := 0, score := score }

/-- The inner prediction loop of `convert_to_coco` (lines 171–196) for one
image: filters by `dropPred`, scales the box, and threads the running
`ann_id`.  Returns the annotations produced for this image and the next
`ann_id`. -/
def annsFor (li : List (String × LabelEntry)) (imgId w h : ℕ) :
    List Prediction → ℕ → List CocoAnn × ℕ
  | [], annId => ([], annId)
  | p :: rest, annId =>
    match dictFind li p.tagName with
    | none => annsFor li imgId w h rest annId
    | some e =>
      if p.probability < e.threshold then
        annsFor li imgId w h rest annId
      else
        let r := annsFor li imgId w h rest (annId + 1)
        (mkAnn annId imgId e.id p.boundingBox p.probability w h :: r.1, r.2)

/-- The outer image loop of `convert_to_coco` (lines 161–196):
`enumerate(images, 1)` assigns image ids from 1, and `ann_id` is threaded
across images. -/
def cocoLoop (li : List (String × LabelEntry)) :
    List ImageInput → ℕ → ℕ → List CocoImage × List CocoAnn
  | [], _, _ => ([], [])
  | inp :: rest, imgId, annId =>
    let a := annsFor li imgId inp.width inp.height inp.predictions annId
    let r := cocoLoop li rest (imgId + 1) a.2
    (⟨imgId, inp.file_name, inp.width, inp.height⟩ :: r.1, a.1 ++ r.2)

/-- `convert_to_coco` of `Customvision_Predict_To_Labelstudio.py`
(lines 143–198): builds `categories` from `LABEL_INFO`, then runs the
image loop with image ids and annotation ids starting at 1. -/
def convert_to_coco (inputs : List ImageInput) : Coco :=
  let r := cocoLoop LABEL_INFO inputs 1 1
  { images := r.1, anns := r.2,
    categories := LABEL_INFO.map (fun p => ⟨p.2.id, p.1⟩) }

/-- Round to the nearest integer, ties to even: the tie rule of Python 3's
builtin `round`, applied here to the exact rational value. -/
def roundHalfEven (q : ℚ) : ℤ :=
  let f := ⌊q⌋
  if q - f < 1/2 then f
  else if 1/2 < q - f then f + 1
  else if Even f then f else f + 1

/-- Python `round(v, 2)` in exact-rational semantics: round `100·v`
half-to-even, then divide by 100.  This is the rounding mode used by
`convert_to_labelstudio` lines 238–241. -/
def pyRound2 (q : ℚ) : ℚ := (roundHalfEven (q * 100) : ℚ) / 100

/-- The `value` dict of one Label Studio result (lines 237–244). -/
structure LSValue where
  x : ℚ
  y : ℚ
  width : ℚ
  height : ℚ
  rotation : ℕ
  rectanglelabels : List String
  deriving DecidableEq, Repr

/-- One entry of a task's `result` list (lines 233–248). -/
structure LSResult where
  original_width : ℕ
  original_height : ℕ
  image_rotation : ℕ
  value : LSValue
  from_name : String
  to_name : String
  type : String
  deriving DecidableEq, Repr

/-- One Label Studio task (lines 227–230): `data.image` is the path key;
the source nests the result list as `annotations = [{"result": […]}]` with
exactly one annotations entry, modelled here as the single `result` list. -/
structure LSTask where
  image : String
  result : List LSResult
  deriving DecidableEq, Repr

/-- The `data.image` path key of lines 220–224: the literal prefix, the
configured image folder, a slash and the file name, with every backslash
replaced by a forward slash. -/
def filePath (imageFolder fileName : String) : String :=
  ("/data/local-files/?d=" ++ imageFolder ++ "/" ++ fileName).replace "\\" "/"

/-- The percentage re-projection result of lines 232–248 for one
annotation: each coordinate is `round(v / dim * 100, 2)`, the category
name goes into `rectanglelabels`. -/
def mkResult (img : CocoImage) (catName : String) (ann : CocoAnn) : LSResult :=
  { original_width := img.width, original_height := img.height,
    image_rotation := 0,
    value :=
      { x := pyRound2 (ann.bbox.1 / img.width * 100),
        y := pyRound2 (ann.bbox.2.1 / img.height * 100),
        width := pyRound2 (ann.bbox.2.2.1 / img.width * 100),
        height := pyRound2 (ann.bbox.2.2.2 / img.height * 100),
        rotation := 0, rectanglelabels := [catName] },
    from_name := "label", to_name := "image", type := "rectanglelabels" }

/-- Insertion into the `task_map` dict (lines 226–249): a new key is
appended at the end (Python dicts preserve insertion order); an existing
key gets the result appended to its task's result list, in place. -/
def insertTask (m : List (String × LSTask)) (k : String) (r : LSResult) :
    List (String × LSTask) :=
  match m with
  | [] => [(k, { image := k, result := [r] })]
  | (k', t) :: rest =>
    if k' = k then (k', { t with result := t.result ++ [r] }) :: rest
    else (k', t) :: insertTask rest k r

/-- The annotation loop of `convert_to_labelstudio` (lines 218–249).
`images[ann["image_id"]]` and `categories[ann["category_id"]]` are dict
accesses that raise `KeyError` when absent, hence the `Option`. -/
def lsLoop (folder : String) (imgs : List (ℕ × CocoImage)) (cats : List (ℕ × String)) :
    List CocoAnn → List (String × LSTask) → Option (List (String × LSTask))
  | [], acc => some acc
  | ann :: rest, acc =>
    match dictFind imgs ann.image_id, dictFind cats ann.category_id with
    | some img, some catName =>
      lsLoop folder imgs cats rest
        (insertTask acc (filePath folder img.file_name) (mkResult img catName ann))
    | _, _ => none

/-- `convert_to_labelstudio` of `Customvision_Predict_To_Labelstudio.py`
(lines 204–251): builds the id→image and id→name dicts, folds the
annotations into `task_map`, and returns `list(task_map.values())`.
`folder` is the configured `IMAGE_FOLDER` path string. -/
def convert_to_labelstudio (folder : String) (coco : Coco) : Option (List LSTask) :=
  (lsLoop folder (coco.images.map (fun i => (i.id, i)))
      (coco.categories.map (fun c => (c.id, c.name))) coco.anns []).map
    (fun m => m.map Prod.snd)

/-- One region of the Azure upload format
(`Customvision_Upload_And_Train.py` lines 118–124): a tag id (a GUID
string from the tag map) and the box re-normalized to [0,1] floats. -/
structure Region where
  tagId : String
  left : ℚ
  top : ℚ
  width : ℚ
  height : ℚ
  deriving DecidableEq, Repr

/-- The region built at lines 118–124: divide each pixel coordinate by the
matching image dimension; no rounding. -/
def mkRegion (tagId : String) (img : CocoImage) (ann : CocoAnn) : Region :=
  { tagId := tagId, left := ann.bbox.1 / img.width, top := ann.bbox.2.1 / img.height,
    width := ann.bbox.2.2.1 / img.width, height := ann.bbox.2.2.2 / img.height }

/-- Insertion into the `uploads` dict (lines 126–128): a new file name is
appended with a fresh singleton list; an existing one gets the region
appended to its list. -/
def insertRegion (m : List (String × List Region)) (k : String) (r : Region) :
    List (String × List Region) :=
  match m with
  | [] => [(k, [r])]
  | (k', rs) :: rest =>
    if k' = k then (k', rs ++ [r]) :: rest
    else (k', rs) :: insertRegion rest k r

/-- The annotation loop of `convert_coco_to_azure_uploads`
(lines 108–128): image and category dict accesses raise on a missing key
(`Option`); a category name missing from `tag_map` is skipped with
`continue` (line 114–115), silently. -/
def azLoop (tm : List (String × String)) (imgs : List (ℕ × CocoImage))
    (cats : List (ℕ × String)) :
    List CocoAnn → List (String × List Region) → Option (List (String × List Region))
  | [], acc => some acc
  | ann :: rest, acc =>
    match dictFind imgs ann.image_id, dictFind cats ann.category_id with
    | some img, some catName =>
      match dictFind tm catName with
      | none => azLoop tm imgs cats rest acc
      | some tid =>
        azLoop tm imgs cats rest
          (insertRegion acc img.file_name (mkRegion tid img ann))
    | _, _ => none

/-- `convert_coco_to_azure_uploads` of `Customvision_Upload_And_Train.py`
(lines 92–130): builds the id→image and id→name dicts and folds the
annotations into the `uploads` dict `{file_name: [region, …]}`. -/
def convert_coco_to_azure_uploads (coco : Coco) (tm : List (String × String)) :
    Option (List (String × List Region)) :=
  azLoop tm (coco.images.map (fun i => (i.id, i)))
    (coco.categories.map (fun c => (c.id, c.name))) coco.anns []

/-- A concrete annotation used in examples: pixel box (1, 1, 1, 1) on a
300×300 image gives percentage coordinates with a repeating third decimal,
separating the rounded percentage form from the unrounded region form. -/
def regAnn : CocoAnn := ⟨1, 1, 4, (1, 1, 1, 1), 1, 0, 1⟩

/-- The 300×300 example image for `regAnn`. -/
def regImg : CocoImage := ⟨1, "a.jpg", 300, 300⟩

/-- The fractional box of the spec's worked example
(`{left: 0.1, top: 0.2, width: 0.3, height: 0.4}`). -/
def specBox : BoundingBox := ⟨1/10, 2/10, 3/10, 4/10⟩

/-- The spec's worked example input: one 1000×500 image with one
detection `{label: "텍스트", confidence: 0.95}` on `specBox`. -/
def specInput : ImageInput := ⟨"a.jpg", 1000, 500, [⟨"텍스트", 95/100, specBox⟩]⟩

/-- First lookup in an association list in insertion order (the order in
which `insertTask`/`insertRegion` keep a unique binding per key). -/
def assocGet {β : Type} (m : List (String × β)) (k : String) : Option β :=
  (m.find? (fun p => decide (p.1 = k))).map Prod.snd

/-- Removes from one image's input the predictions whose label is not a
key of the mapping (statement-side helper for the silent-drop claim). -/
def knownOnly (li : List (String × LabelEntry)) (i : ImageInput) : ImageInput :=
  { i with predictions :=
      i.predictions.filter (fun p => (dictFind li p.tagName).isSome) }

/-- Example input with two surviving detections on the same image, in the
order 텍스트 then 인물. -/
def twoAnnInput : ImageInput :=
  ⟨"a.jpg", 1000, 500,
   [⟨"텍스트", 95/100, specBox⟩, ⟨"인물", 9/10, ⟨1/2, 1/2, 1/4, 1/4⟩⟩]⟩

/-- The COCO output of the two-detection example. -/
def twoAnnCoco : Coco := convert_to_coco [twoAnnInput]

/-- The expected Label Studio output of the two-detection example: one
task for the one image, with its two results in first-seen order. -/
def twoAnnTasks : List LSTask :=
  [⟨filePath "F" "a.jpg",
    [⟨1000, 500, 0, ⟨10, 20, 30, 40, 0, ["텍스트"]⟩, "label", "image", "rectanglelabels"⟩,
     ⟨1000, 500, 0, ⟨50, 50, 25, 25, 0, ["인물"]⟩, "label", "image", "rectanglelabels"⟩]⟩]

/-- The expected uploads output of the two-detection example: one file
entry with its two regions in first-seen order. -/
def twoAnnUps : List (String × List Region) :=
  [("a.jpg", [⟨"T1", 1/10, 1/5, 3/10, 2/5⟩, ⟨"T2", 1/2, 1/2, 1/4, 1/4⟩])]

end Thumb

namespace Thumb

/-- Half-even rounding lands within one half of its argument. -/
theorem roundHalfEven_abs_le (x : ℚ) : |x - roundHalfEven x| ≤ 1/2 := by
  simp only [roundHalfEven]
  split_ifs <;>
    (rw [abs_le]; constructor <;> push_cast <;>
      linarith [Int.floor_le x, Int.lt_floor_add_one x])

/-- Half-even rounding returns a nearest integer. -/
theorem roundHalfEven_nearest (x : ℚ) (z : ℤ) :
    |x - roundHalfEven x| ≤ |x - z| := by
  by_cases hz : z = roundHalfEven x
  · subst hz; exact le_refl _
  · have h1 : |x - (roundHalfEven x : ℚ)| ≤ 1/2 := roundHalfEven_abs_le x
    have h2 : (1:ℚ) ≤ |(z:ℚ) - (roundHalfEven x : ℚ)| := by
      have : (1:ℤ) ≤ |z - roundHalfEven x| :=
        Int.one_le_abs (sub_ne_zero.mpr hz)
      exact_mod_cast this
    have h3 : |(z:ℚ) - (roundHalfEven x : ℚ)|
        ≤ |(z:ℚ) - x| + |x - (roundHalfEven x : ℚ)| := by
      calc |(z:ℚ) - (roundHalfEven x : ℚ)|
          = |((z:ℚ) - x) + (x - (roundHalfEven x : ℚ))| := by ring_nf
        _ ≤ |(z:ℚ) - x| + |x - (roundHalfEven x : ℚ)| := abs_add _ _
    have h4 : |x - (z:ℚ)| = |(z:ℚ) - x| := abs_sub_comm _ _
    linarith

/-- At an exact half, half-even rounding returns an even integer. -/
theorem roundHalfEven_tie_even (x : ℚ) (hx : x - ⌊x⌋ = 1/2) :
    Even (roundHalfEven x) := by
  simp only [roundHalfEven]
  rw [if_neg (by rw [hx]; norm_num), if_neg (by rw [hx]; norm_num)]
  split_ifs with h
  · exact h
  · exact Int.even_add_one.mpr h

/-- Dropping the predictions whose label is unknown to the mapping does
not change the annotations produced for one image. -/
theorem annsFor_filter (li : List (String × LabelEntry)) (imgId w h : ℕ)
    (preds : List Prediction) : ∀ annId : ℕ,
    annsFor li imgId w h
        (preds.filter (fun p => (dictFind li p.tagName).isSome)) annId
      = annsFor li imgId w h preds annId := by
  induction preds with
  | nil => intro _; rfl
  | cons p rest ih =>
    intro annId
    cases hp : dictFind li p.tagName with
    | none =>
      rw [List.filter_cons_of_neg (by simp [hp]), ih]
      simp [annsFor, hp]
    | some e =>
      rw [List.filter_cons_of_pos (by simp [hp])]
      simp only [annsFor, hp]
      split_ifs <;> simp [ih]

/-- Dropping unknown-label predictions does not change the image loop of
`convert_to_coco` at all. -/
theorem cocoLoop_filter (li : List (String × LabelEntry)) (ins : List ImageInput) :
    ∀ imgId annId : ℕ,
    cocoLoop li (ins.map (knownOnly li)) imgId annId = cocoLoop li ins imgId annId := by
  induction ins with
  | nil => intro _ _; rfl
  | cons i rest ih =>
    intro imgId annId
    simp only [List.map_cons, cocoLoop, knownOnly, annsFor_filter, ih]

/-- Keys of `insertTask`: an existing key leaves the key list unchanged,
a new key is appended at the end. -/
theorem insertTask_keys (m : List (String × LSTask)) (k : String) (r : LSResult) :
    (insertTask m k r).map Prod.fst
      = if k ∈ m.map Prod.fst then m.map Prod.fst else m.map Prod.fst ++ [k] := by
  induction m with
  | nil => simp [insertTask]
  | cons p rest ih =>
    obtain ⟨k', t⟩ := p
    by_cases h : k' = k
    · simp [insertTask, h]
    · have h' : ¬ k = k' := fun hk => h hk.symm
      simp only [insertTask, if_neg h, List.map_cons, ih, List.mem_cons, h',
        false_or]
      split_ifs <;> simp

/-- Keys of `insertRegion`: an existing key leaves the key list
unchanged, a new key is appended at the end. -/
theorem insertRegion_keys (m : List (String × List Region)) (k : String) (r : Region) :
    (insertRegion m k r).map Prod.fst
      = if k ∈ m.map Prod.fst then m.map Prod.fst else m.map Prod.fst ++ [k] := by
  induction m with
  | nil => simp [insertRegion]
  | cons p rest ih =>
    obtain ⟨k', rs⟩ := p
    by_cases h : k' = k
    · simp [insertRegion, h]
    · have h' : ¬ k = k' := fun hk => h hk.symm
      simp only [insertRegion, if_neg h, List.map_cons, ih, List.mem_cons, h',
        false_or]
      split_ifs <;> simp

/-- Looking up the inserted key after `insertTask`: the result is
appended at the end of the existing task's list, or a fresh singleton
task is created. -/
theorem assocGet_insertTask (m : List (String × LSTask)) (k : String) (r : LSResult) :
    assocGet (insertTask m k r) k
      = some (match assocGet m k with
          | some t => { t with result := t.result ++ [r] }
          | none => { image := k, result := [r] }) := by
  induction m with
  | nil => simp [insertTask, assocGet, List.find?]
  | cons p rest ih =>
    obtain ⟨k', t⟩ := p
    by_cases h : k' = k
    · subst h
      simp [insertTask, assocGet, List.find?]
    · rw [show insertTask ((k', t) :: rest) k r = (k', t) :: insertTask rest k r from by
        simp [insertTask, h]]
      rw [show assocGet ((k', t) :: insertTask rest k r) k
          = assocGet (insertTask rest k r) k from by simp [assocGet, List.find?, h]]
      rw [show assocGet ((k', t) :: rest) k = assocGet rest k from by
        simp [assocGet, List.find?, h]]
      exact ih

/-- Looking up the inserted key after `insertRegion`: the region is
appended at the end of the existing list, or a fresh singleton list. -/
theorem assocGet_insertRegion (m : List (String × List Region)) (k : String)
    (r : Region) :
    assocGet (insertRegion m k r) k = some ((assocGet m k).getD [] ++ [r]) := by
  induction m with
  | nil => simp [insertRegion, assocGet, List.find?]
  | cons p rest ih =>
    obtain ⟨k', rs⟩ := p
    by_cases h : k' = k
    · subst h
      simp [insertRegion, assocGet, List.find?]
    · rw [show insertRegion ((k', rs) :: rest) k r = (k', rs) :: insertRegion rest k r from by
        simp [insertRegion, h]]
      rw [show assocGet ((k', rs) :: insertRegion rest k r) k
          = assocGet (insertRegion rest k r) k from by simp [assocGet, List.find?, h]]
      rw [show assocGet ((k', rs) :: rest) k = assocGet rest k from by
        simp [assocGet, List.find?, h]]
      exact ih

/-- `insertTask` preserves the invariant that every stored task's image
path equals its key. -/
theorem insertTask_image (m : List (String × LSTask)) (k : String) (r : LSResult)
    (h : ∀ p ∈ m, (Prod.snd p).image = p.1) :
    ∀ p ∈ insertTask m k r, (Prod.snd p).image = p.1 := by
  induction m with
  | nil =>
    intro p hp
    simp only [insertTask, List.mem_singleton] at hp
    subst hp; rfl
  | cons q rest ih =>
    obtain ⟨k', t⟩ := q
    intro p hp
    by_cases hk : k' = k
    · simp only [insertTask, if_pos hk, List.mem_cons] at hp
      rcases hp with hp | hp
      · subst hp; exact h (k', t) (by simp)
      · exact h p (by simp [hp])
    · simp only [insertTask, if_neg hk, List.mem_cons] at hp
      rcases hp with hp | hp
      · subst hp; exact h (k', t) (by simp)
      · exact ih (fun q hq => h q (by simp [hq])) p hp

/-- `insertTask` preserves the invariant that every stored result list is
nonempty. -/
theorem insertTask_ne_nil (m : List (String × LSTask)) (k : String) (r : LSResult)
    (h : ∀ p ∈ m, (Prod.snd p).result ≠ []) :
    ∀ p ∈ insertTask m k r, (Prod.snd p).result ≠ [] := by
  induction m with
  | nil =>
    intro p hp
    simp only [insertTask, List.mem_singleton] at hp
    subst hp; simp
  | cons q rest ih =>
    obtain ⟨k', t⟩ := q
    intro p hp
    by_cases hk : k' = k
    · simp only [insertTask, if_pos hk, List.mem_cons] at hp
      rcases hp with hp | hp
      · subst hp; simp
      · exact h p (by simp [hp])
    · simp only [insertTask, if_neg hk, List.mem_cons] at hp
      rcases hp with hp | hp
      · subst hp; exact h (k', t) (by simp)
      · exact ih (fun q hq => h q (by simp [hq])) p hp

/-- `insertRegion` preserves the invariant that every stored region list
is nonempty. -/
theorem insertRegion_ne_nil (m : List (String × List Region)) (k : String)
    (r : Region) (h : ∀ p ∈ m, Prod.snd p ≠ []) :
    ∀ p ∈ insertRegion m k r, Prod.snd p ≠ [] := by
  induction m with
  | nil =>
    intro p hp
    simp only [insertRegion, List.mem_singleton] at hp
    subst hp; simp
  | cons q rest ih =>
    obtain ⟨k', rs⟩ := q
    intro p hp
    by_cases hk : k' = k
    · simp only [insertRegion, if_pos hk, List.mem_cons] at hp
      rcases hp with hp | hp
      · subst hp; simp
      · exact h p (by simp [hp])
    · simp only [insertRegion, if_neg hk, List.mem_cons] at hp
      rcases hp with hp | hp
      · subst hp; exact h (k', rs) (by simp)
      · exact ih (fun q hq => h q (by simp [hq])) p hp

/-- Any property preserved by `insertTask` and holding of the initial
accumulator holds of a successful `lsLoop` output. -/
theorem lsLoop_invariant (P : List (String × LSTask) → Prop)
    (hP : ∀ m k r, P m → P (insertTask m k r)) (folder : String)
    (imgs : List (ℕ × CocoImage)) (cats : List (ℕ × String)) :
    ∀ (anns : List CocoAnn) (acc res : List (String × LSTask)),
      P acc → lsLoop folder imgs cats anns acc = some res → P res := by
  intro anns
  induction anns with
  | nil =>
    intro acc res hacc heq
    simp only [lsLoop, Option.some.injEq] at heq
    exact heq ▸ hacc
  | cons ann rest ih =>
    intro acc res hacc heq
    simp only [lsLoop] at heq
    cases h1 : dictFind imgs ann.image_id with
    | none =>
      simp only [h1] at heq
      exact Option.noConfusion heq
    | some img =>
      cases h2 : dictFind cats ann.category_id with
      | none =>
        simp only [h1, h2] at heq
        exact Option.noConfusion heq
      | some catName =>
        simp only [h1, h2] at heq
        exact ih _ _ (hP _ _ _ hacc) heq

/-- Any property preserved by `insertRegion` and holding of the initial
accumulator holds of a successful `azLoop` output. -/
theorem azLoop_invariant (P : List (String × List Region) → Prop)
    (hP : ∀ m k r, P m → P (insertRegion m k r)) (tm : List (String × String))
    (imgs : List (ℕ × CocoImage)) (cats : List (ℕ × String)) :
    ∀ (anns : List CocoAnn) (acc res : List (String × List Region)),
      P acc → azLoop tm imgs cats anns acc = some res → P res := by
  intro anns
  induction anns with
  | nil =>
    intro acc res hacc heq
    simp only [azLoop, Option.some.injEq] at heq
    exact heq ▸ hacc
  | cons ann rest ih =>
    intro acc res hacc heq
    simp only [azLoop] at heq
    cases h1 : dictFind imgs ann.image_id with
    | none =>
      simp only [h1] at heq
      exact Option.noConfusion heq
    | some img =>
      cases h2 : dictFind cats ann.category_id with
      | none =>
        simp only [h1, h2] at heq
        exact Option.noConfusion heq
      | some catName =>
        simp only [h1, h2] at heq
        cases h3 : dictFind tm catName with
        | none =>
          simp only [h3] at heq
          exact ih _ _ hacc heq
        | some tid =>
          simp only [h3] at heq
          exact ih _ _ (hP _ _ _ hacc) heq

/-- The image list built by `cocoLoop`: one entry per input image, in
order, with ids counted up from the starting id, independently of the
predictions and of the filter. -/
theorem cocoLoop_images (li : List (String × LabelEntry)) (ins : List ImageInput) :
    ∀ imgId annId : ℕ,
    (cocoLoop li ins imgId annId).1.map (fun i => (i.file_name, i.width, i.height))
        = ins.map (fun i => (i.file_name, i.width, i.height))
    ∧ (cocoLoop li ins imgId annId).1.map (fun i => i.id)
        = List.range' imgId ins.length := by
  induction ins with
  | nil => intro _ _; exact ⟨rfl, rfl⟩
  | cons i rest ih =>
    intro imgId annId
    simp only [cocoLoop, List.map_cons, List.length_cons, List.range']
    exact ⟨by rw [(ih _ _).1], by rw [(ih _ _).2]⟩

/-- Full evaluation of the Label Studio conversion on the two-detection
example. -/
theorem twoAnnLS_eval :
    convert_to_labelstudio "F" twoAnnCoco = some twoAnnTasks := by
  simp only [twoAnnCoco, twoAnnInput, convert_to_coco, cocoLoop, annsFor, dictFind,
    LABEL_INFO, mkAnn, normalizeBox, List.find?, specBox, twoAnnTasks]
  norm_num
  simp [convert_to_labelstudio, lsLoop, insertTask, mkResult, dictFind, List.find?,
    pyRound2, roundHalfEven]
  all_goals norm_num

/-- Full evaluation of the uploads conversion on the two-detection
example. -/
theorem twoAnnUps_eval :
    convert_coco_to_azure_uploads twoAnnCoco [("텍스트", "T1"), ("인물", "T2")]
      = some twoAnnUps := by
  simp only [twoAnnCoco, twoAnnInput, convert_to_coco, cocoLoop, annsFor, dictFind,
    LABEL_INFO, mkAnn, normalizeBox, List.find?, specBox, twoAnnUps]
  norm_num
  simp [convert_coco_to_azure_uploads, azLoop, insertRegion, mkRegion, dictFind,
    List.find?]
  all_goals norm_num

/-- C1: the category filter of `convert_to_coco` keeps a detection iff its
label is a key of the mapping and its confidence is at least that label's
threshold (so exact equality with the threshold is kept); a rejected
prediction contributes nothing to the inner annotation loop. -/
theorem C1_filter_keep_iff :
    (∀ (li : List (String × LabelEntry)) (label : String) (prob : ℚ),
      keepPred li label prob = true ↔
        ∃ e, dictFind li label = some e ∧ e.threshold ≤ prob)
    ∧ (∀ (li : List (String × LabelEntry)) (imgId w h : ℕ) (p : Prediction)
        (rest : List Prediction) (annId : ℕ),
        keepPred li p.tagName p.probability = false →
          annsFor li imgId w h (p :: rest) annId = annsFor li imgId w h rest annId)
    ∧ keepPred LABEL_INFO "인물" (9/10) = true := by
  refine ⟨fun li label prob => ?_, fun li imgId w h p rest annId hk => ?_,
    by simp [keepPred, dropPred, dictFind, LABEL_INFO, List.find?]⟩
  · cases h : dictFind li label with
    | none => simp [keepPred, dropPred, h]
    | some e => simp [keepPred, dropPred, h, not_lt]
  · cases h : dictFind li p.tagName with
    | none => simp [annsFor, h]
    | some e =>
      have hlt : p.probability < e.threshold := by
        simpa [keepPred, dropPred, h] using hk
      simp [annsFor, h, hlt]

/-- C1 witness: a prediction below threshold is rejected and contributes
no annotation. -/
theorem C1_filter_keep_iff_witness :
    annsFor LABEL_INFO 1 1000 500 [⟨"인물", 1/2, specBox⟩] 1
      = annsFor LABEL_INFO 1 1000 500 [] 1 :=
  C1_filter_keep_iff.2.1 LABEL_INFO 1 1000 500 ⟨"인물", 1/2, specBox⟩ [] 1
    (by simp [keepPred, dropPred, dictFind, LABEL_INFO, List.find?]; norm_num)

/-- C2: the fractional→pixel scaling returns exactly
`(left·width, top·height, width_frac·width, height_frac·height)`, and on
the spec's worked example (box (0.1,0.2,0.3,0.4), 1000×500 image) the
pipeline yields pixel box (100, 100, 300, 200) and percentage
re-projection (10, 20, 30, 40). -/
theorem C2_normalizer :
    (∀ (b : BoundingBox) (w h : ℕ),
        normalizeBox b w h = (b.left * w, b.top * h, b.width * w, b.height * h))
    ∧ normalizeBox specBox 1000 500 = (100, 100, 300, 200)
    ∧ (convert_to_coco [specInput]).anns.map (fun a => a.bbox) = [(100, 100, 300, 200)]
    ∧ (convert_to_labelstudio "F" (convert_to_coco [specInput])).map
        (fun ts => ts.map (fun t => t.result.map
          (fun r => (r.value.x, r.value.y, r.value.width, r.value.height))))
        = some [[(10, 20, 30, 40)]] := by
  refine ⟨fun _ _ _ => rfl, ?_, ?_, ?_⟩
  · norm_num [normalizeBox, specBox, Prod.ext_iff]
  · norm_num [convert_to_coco, cocoLoop, annsFor, dictFind, LABEL_INFO, mkAnn,
      normalizeBox, specInput, specBox, List.find?, Prod.ext_iff]
  · norm_num [convert_to_coco, convert_to_labelstudio, cocoLoop, annsFor, lsLoop,
      insertTask, mkResult, mkAnn, normalizeBox, pyRound2, roundHalfEven,
      dictFind, LABEL_INFO, specInput, specBox, List.find?, Prod.ext_iff]

/-- C7 counterexample: at width = 0 (a non-positive dimension) the scaling
silently returns a result, `(0, 100, 0, 200)`; no error of any kind is
signalled, contradicting the claimed `InvalidDimension` failure. -/
theorem C7_counterexample :
    normalizeBox specBox 0 500 = (0, 100, 0, 200) := by
  norm_num [normalizeBox, specBox, Prod.ext_iff]

/-- C3: each coordinate of the percentage re-projection equals
`x/width·100` (resp. `y/height·100`, `w/width·100`, `h/height·100`)
rounded to 2 decimal digits under one fixed rounding mode, half-even (the
tie rule of Python's builtin `round`, applied to the exact rational
value): the rounded value is a multiple of 1/100, within 1/200 of the
exact value, no multiple of 1/100 is closer, and a tie at the third
decimal rounds to an even hundredth. -/
theorem C3_percentage_rounding :
    (∀ (img : CocoImage) (catName : String) (ann : CocoAnn),
        (mkResult img catName ann).value.x = pyRound2 (ann.bbox.1 / img.width * 100)
        ∧ (mkResult img catName ann).value.y = pyRound2 (ann.bbox.2.1 / img.height * 100)
        ∧ (mkResult img catName ann).value.width
            = pyRound2 (ann.bbox.2.2.1 / img.width * 100)
        ∧ (mkResult img catName ann).value.height
            = pyRound2 (ann.bbox.2.2.2 / img.height * 100))
    ∧ (∀ q : ℚ, ∃ z : ℤ, pyRound2 q = z / 100)
    ∧ (∀ q : ℚ, |q - pyRound2 q| ≤ 1/200)
    ∧ (∀ (q : ℚ) (z : ℤ), |q - pyRound2 q| ≤ |q - z / 100|)
    ∧ (∀ q : ℚ, q * 100 - ⌊q * 100⌋ = 1/2 → ∃ z : ℤ, Even z ∧ pyRound2 q = z / 100) := by
  refine ⟨fun img catName ann => ⟨rfl, rfl, rfl, rfl⟩,
    fun q => ⟨roundHalfEven (q * 100), rfl⟩, fun q => ?_, fun q z => ?_, fun q hq => ?_⟩
  · have h := roundHalfEven_abs_le (q * 100)
    rw [pyRound2, show q - (roundHalfEven (q * 100) : ℚ) / 100
      = (q * 100 - (roundHalfEven (q * 100) : ℚ)) / 100 by ring, abs_div]
    rw [show |(100:ℚ)| = 100 by norm_num]
    linarith
  · have h := roundHalfEven_nearest (q * 100) z
    rw [pyRound2, show q - (roundHalfEven (q * 100) : ℚ) / 100
      = (q * 100 - (roundHalfEven (q * 100) : ℚ)) / 100 by ring,
      show q - (z:ℚ) / 100 = (q * 100 - (z:ℚ)) / 100 by ring, abs_div, abs_div]
    rw [show |(100:ℚ)| = 100 by norm_num]
    have h100 : (0:ℚ) < 100 := by norm_num
    exact (div_le_div_iff_of_pos_right h100).mpr h
  · exact ⟨roundHalfEven (q * 100), roundHalfEven_tie_even (q * 100) hq, rfl⟩

/-- C3 witness: at 1/40 = 2.5%, the third decimal is an exact tie and the
rounding yields the even hundredth 2/100. -/
theorem C3_percentage_rounding_witness :
    ((1:ℚ)/40 * 100 - ⌊(1:ℚ)/40 * 100⌋ = 1/2
      ∧ ∃ z : ℤ, Even z ∧ pyRound2 (1/40) = z / 100)
    ∧ pyRound2 ((1:ℚ)/40) = 1/50 :=
  ⟨⟨by norm_num, C3_percentage_rounding.2.2.2.2 (1/40) (by norm_num)⟩,
    by norm_num [pyRound2, roundHalfEven]⟩

/-- C4: the region-form re-projection returns the tag id looked up in the
name→id map together with the box divided componentwise by the image
dimensions, as [0,1]-scale values with no percentage factor and no
rounding; on the 300×300 example its left value is exactly 1/300, which
differs from the rounded percentage form — a distinct numeric
convention. -/
theorem C4_region_form :
    (∀ (tid : String) (img : CocoImage) (ann : CocoAnn),
        mkRegion tid img ann
          = ⟨tid, ann.bbox.1 / img.width, ann.bbox.2.1 / img.height,
             ann.bbox.2.2.1 / img.width, ann.bbox.2.2.2 / img.height⟩)
    ∧ (∀ (tm : List (String × String)) (imgs : List (ℕ × CocoImage))
        (cats : List (ℕ × String)) (ann : CocoAnn) (rest : List CocoAnn)
        (acc : List (String × List Region)) (img : CocoImage)
        (catName tid : String),
        dictFind imgs ann.image_id = some img →
        dictFind cats ann.category_id = some catName →
        dictFind tm catName = some tid →
        azLoop tm imgs cats (ann :: rest) acc
          = azLoop tm imgs cats rest
              (insertRegion acc img.file_name (mkRegion tid img ann)))
    ∧ (mkRegion "T" regImg regAnn).left = 1/300
    ∧ (mkRegion "T" regImg regAnn).left * 100
        ≠ (mkResult regImg "텍스트" regAnn).value.x := by
  refine ⟨fun tid img ann => rfl, fun tm imgs cats ann rest acc img catName tid h1 h2 h3 => ?_,
    ?_, ?_⟩
  · simp [azLoop, h1, h2, h3]
  · norm_num [mkRegion, regImg, regAnn]
  · norm_num [mkRegion, mkResult, pyRound2, roundHalfEven, regImg, regAnn]

/-- C4 witness: one annotation whose category is in the tag map is folded
into the uploads dict as its region. -/
theorem C4_region_form_witness :
    azLoop [("텍스트", "T")] [(1, regImg)] [(4, "텍스트")] [regAnn] []
      = azLoop [("텍스트", "T")] [(1, regImg)] [(4, "텍스트")] []
          (insertRegion [] regImg.file_name (mkRegion "T" regImg regAnn)) :=
  C4_region_form.2.1 [("텍스트", "T")] [(1, regImg)] [(4, "텍스트")] regAnn [] []
    regImg "텍스트" "T" (by simp [dictFind, List.find?, regAnn])
    (by simp [dictFind, List.find?, regAnn]) (by simp [dictFind, List.find?])

/-- C5: dividing the scaled pixel box by the image dimensions, exactly as
the region-form re-projection does, recovers the original fractional box
(exactly, in this embedding's exact rational arithmetic). -/
theorem C5_roundtrip (annId imgId catId : ℕ) (b : BoundingBox) (score : ℚ)
    (tid fn : String) (iid w h : ℕ) (hw : 0 < w) (hh : 0 < h)
    (hl0 : 0 ≤ b.left) (hl1 : b.left ≤ 1) (ht0 : 0 ≤ b.top) (ht1 : b.top ≤ 1)
    (hw0 : 0 ≤ b.width) (hw1 : b.width ≤ 1)
    (hh0 : 0 ≤ b.height) (hh1 : b.height ≤ 1) :
    mkRegion tid ⟨iid, fn, w, h⟩ (mkAnn annId imgId catId b score w h)
      = ⟨tid, b.left, b.top, b.width, b.height⟩ := by
  have hwq : (w:ℚ) ≠ 0 := Nat.cast_ne_zero.mpr hw.ne'
  have hhq : (h:ℚ) ≠ 0 := Nat.cast_ne_zero.mpr hh.ne'
  simp [mkRegion, mkAnn, normalizeBox, Region.mk.injEq,
    mul_div_cancel_right₀, hwq, hhq]

/-- C5 witness: the spec's example box on the 1000×500 image
round-trips. -/
theorem C5_roundtrip_witness :
    mkRegion "T" ⟨1, "a.jpg", 1000, 500⟩ (mkAnn 1 1 4 specBox (95/100) 1000 500)
      = ⟨"T", specBox.left, specBox.top, specBox.width, specBox.height⟩ :=
  C5_roundtrip 1 1 4 specBox (95/100) "T" "a.jpg" 1 1000 500 (by norm_num) (by norm_num)
    (by norm_num [specBox]) (by norm_num [specBox]) (by norm_num [specBox])
    (by norm_num [specBox]) (by norm_num [specBox]) (by norm_num [specBox])
    (by norm_num [specBox]) (by norm_num [specBox])

/-- C9: an annotation built from a well-formed fractional box on an image
with positive dimensions has `area = w·h` on its pixel box, and its bbox
satisfies `0 ≤ x`, `0 ≤ y`, `x + w ≤ width` and `y + h ≤ height`. -/
theorem C9_ann_invariants (annId imgId catId : ℕ) (b : BoundingBox) (score : ℚ)
    (w h : ℕ) (hw : 0 < w) (hh : 0 < h)
    (h1 : 0 ≤ b.left) (h2 : 0 ≤ b.top) (h3 : 0 ≤ b.width) (h4 : 0 ≤ b.height)
    (h5 : b.left + b.width ≤ 1) (h6 : b.top + b.height ≤ 1) :
    (mkAnn annId imgId catId b score w h).area
        = (mkAnn annId imgId catId b score w h).bbox.2.2.1
          * (mkAnn annId imgId catId b score w h).bbox.2.2.2
    ∧ 0 ≤ (mkAnn annId imgId catId b score w h).bbox.1
    ∧ 0 ≤ (mkAnn annId imgId catId b score w h).bbox.2.1
    ∧ (mkAnn annId imgId catId b score w h).bbox.1
        + (mkAnn annId imgId catId b score w h).bbox.2.2.1 ≤ w
    ∧ (mkAnn annId imgId catId b score w h).bbox.2.1
        + (mkAnn annId imgId catId b score w h).bbox.2.2.2 ≤ h := by
  have hwq : (0:ℚ) ≤ w := Nat.cast_nonneg w
  have hhq : (0:ℚ) ≤ h := Nat.cast_nonneg h
  refine ⟨rfl, mul_nonneg h1 hwq, mul_nonneg h2 hhq, ?_, ?_⟩
  · have key : (0:ℚ) ≤ (1 - (b.left + b.width)) * w :=
      mul_nonneg (by linarith) hwq
    simp only [mkAnn, normalizeBox]
    nlinarith
  · have key : (0:ℚ) ≤ (1 - (b.top + b.height)) * h :=
      mul_nonneg (by linarith) hhq
    simp only [mkAnn, normalizeBox]
    nlinarith

/-- C9 witness: the spec's example annotation satisfies the invariants on
the 1000×500 image. -/
theorem C9_ann_invariants_witness :
    (mkAnn 1 1 4 specBox (95/100) 1000 500).area
        = (mkAnn 1 1 4 specBox (95/100) 1000 500).bbox.2.2.1
          * (mkAnn 1 1 4 specBox (95/100) 1000 500).bbox.2.2.2
    ∧ 0 ≤ (mkAnn 1 1 4 specBox (95/100) 1000 500).bbox.1
    ∧ 0 ≤ (mkAnn 1 1 4 specBox (95/100) 1000 500).bbox.2.1
    ∧ (mkAnn 1 1 4 specBox (95/100) 1000 500).bbox.1
        + (mkAnn 1 1 4 specBox (95/100) 1000 500).bbox.2.2.1 ≤ (1000:ℕ)
    ∧ (mkAnn 1 1 4 specBox (95/100) 1000 500).bbox.2.1
        + (mkAnn 1 1 4 specBox (95/100) 1000 500).bbox.2.2.2 ≤ (500:ℕ) :=
  C9_ann_invariants 1 1 4 specBox (95/100) 1000 500 (by norm_num) (by norm_num)
    (by norm_num [specBox]) (by norm_num [specBox]) (by norm_num [specBox])
    (by norm_num [specBox]) (by norm_num [specBox]) (by norm_num [specBox])

/-- C6: detections with a label unknown to `LABEL_INFO` are dropped
silently: removing them from the input leaves the COCO output, and hence
the Label Studio output, bit-identical (so they appear in no output group
and raise no error); likewise an annotation whose category name is not in
the tag map is skipped by the uploads loop without any effect. -/
theorem C6_unknown_silently_dropped :
    (∀ ins : List ImageInput,
        convert_to_coco (ins.map (knownOnly LABEL_INFO)) = convert_to_coco ins)
    ∧ (∀ (folder : String) (ins : List ImageInput),
        convert_to_labelstudio folder (convert_to_coco (ins.map (knownOnly LABEL_INFO)))
          = convert_to_labelstudio folder (convert_to_coco ins))
    ∧ (∀ (tm : List (String × String)) (imgs : List (ℕ × CocoImage))
        (cats : List (ℕ × String)) (ann : CocoAnn) (rest : List CocoAnn)
        (acc : List (String × List Region)) (img : CocoImage) (catName : String),
        dictFind imgs ann.image_id = some img →
        dictFind cats ann.category_id = some catName →
        dictFind tm catName = none →
        azLoop tm imgs cats (ann :: rest) acc = azLoop tm imgs cats rest acc) := by
  have hcoco : ∀ ins : List ImageInput,
      convert_to_coco (ins.map (knownOnly LABEL_INFO)) = convert_to_coco ins := by
    intro ins
    unfold convert_to_coco
    rw [cocoLoop_filter]
  exact ⟨hcoco, fun folder ins => by rw [hcoco],
    fun tm imgs cats ann rest acc img catName h1 h2 h3 => by simp [azLoop, h1, h2, h3]⟩

/-- C6 witness: with an empty tag map, the one-annotation uploads loop
degenerates to the empty loop, producing no group and no error. -/
theorem C6_unknown_silently_dropped_witness :
    azLoop [] [(1, regImg)] [(4, "텍스트")] [regAnn] []
      = azLoop [] [(1, regImg)] [(4, "텍스트")] [] [] :=
  C6_unknown_silently_dropped.2.2 [] [(1, regImg)] [(4, "텍스트")] regAnn [] []
    regImg "텍스트" (by simp [dictFind, List.find?, regAnn])
    (by simp [dictFind, List.find?, regAnn]) rfl

/-- C8: grouping yields exactly one group per distinct key (the task path
for the labeling-tool form, the file name for the upload form): keys of a
successful output are distinct; inserting under an existing key leaves the
key order unchanged while a new key is appended at the end (first-seen
order, not sorted); within a group new items are appended at the end
(insertion order); and the two-detection example produces one task / one
file entry holding its two items in first-seen order. -/
theorem C8_grouping :
    (∀ (folder : String) (coco : Coco) (res : List LSTask),
        convert_to_labelstudio folder coco = some res →
          (res.map (fun t => t.image)).Nodup)
    ∧ (∀ (coco : Coco) (tm : List (String × String)) (ups : List (String × List Region)),
        convert_coco_to_azure_uploads coco tm = some ups → (ups.map Prod.fst).Nodup)
    ∧ (∀ (m : List (String × LSTask)) (k : String) (r : LSResult),
        (insertTask m k r).map Prod.fst
          = if k ∈ m.map Prod.fst then m.map Prod.fst else m.map Prod.fst ++ [k])
    ∧ (∀ (m : List (String × List Region)) (k : String) (r : Region),
        (insertRegion m k r).map Prod.fst
          = if k ∈ m.map Prod.fst then m.map Prod.fst else m.map Prod.fst ++ [k])
    ∧ (∀ (m : List (String × LSTask)) (k : String) (r : LSResult),
        assocGet (insertTask m k r) k
          = some (match assocGet m k with
              | some t => { t with result := t.result ++ [r] }
              | none => { image := k, result := [r] }))
    ∧ (∀ (m : List (String × List Region)) (k : String) (r : Region),
        assocGet (insertRegion m k r) k = some ((assocGet m k).getD [] ++ [r]))
    ∧ convert_to_labelstudio "F" twoAnnCoco = some twoAnnTasks
    ∧ convert_coco_to_azure_uploads twoAnnCoco [("텍스트", "T1"), ("인물", "T2")]
        = some twoAnnUps := by
  refine ⟨?_, ?_, insertTask_keys, insertRegion_keys, assocGet_insertTask,
    assocGet_insertRegion, twoAnnLS_eval, twoAnnUps_eval⟩
  · intro folder coco res heq
    unfold convert_to_labelstudio at heq
    cases hm : lsLoop folder (coco.images.map (fun i => (i.id, i)))
        (coco.categories.map (fun c => (c.id, c.name))) coco.anns [] with
    | none => rw [hm] at heq; exact Option.noConfusion heq
    | some m =>
      rw [hm] at heq
      have hres : m.map Prod.snd = res := by
        simpa using heq
      have hinv := lsLoop_invariant
        (fun m => (m.map Prod.fst).Nodup ∧ ∀ p ∈ m, (Prod.snd p).image = p.1)
        (fun m k r hm' => ⟨by
            rw [insertTask_keys]
            split_ifs with h
            · exact hm'.1
            · exact List.Nodup.append hm'.1 (List.nodup_singleton k)
                (by simpa using h),
          insertTask_image m k r hm'.2⟩)
        folder _ _ coco.anns [] m ⟨by simp, by simp⟩ hm
      have himg : res.map (fun t => t.image) = m.map Prod.fst := by
        rw [← hres, List.map_map]
        exact List.map_congr_left (fun p hp => hinv.2 p hp)
      rw [himg]
      exact hinv.1
  · intro coco tm ups heq
    unfold convert_coco_to_azure_uploads at heq
    exact azLoop_invariant (fun m => (m.map Prod.fst).Nodup)
      (fun m k r hm' => by
        show (List.map Prod.fst (insertRegion m k r)).Nodup
        rw [insertRegion_keys]
        split_ifs with h
        · exact hm'
        · exact List.Nodup.append hm' (List.nodup_singleton k) (by simpa using h))
      tm _ _ coco.anns [] ups (by simp) heq

/-- C8 witness: the two-detection example groups into one task whose key
list is duplicate-free. -/
theorem C8_grouping_witness :
    convert_to_labelstudio "F" twoAnnCoco = some twoAnnTasks
    ∧ (twoAnnTasks.map (fun t => t.image)).Nodup :=
  ⟨twoAnnLS_eval, C8_grouping.1 "F" twoAnnCoco twoAnnTasks twoAnnLS_eval⟩

/-- C10: every input image appears in the COCO images array (same file
names, dimensions, and ids 1..n, regardless of how many detections
survive), while the labeling-tool task list and the uploads mapping never
contain an empty result/region group — an image with no surviving
annotation simply has no entry there. -/
theorem C10_outputs_presence :
    (∀ ins : List ImageInput,
        (convert_to_coco ins).images.map (fun i => (i.file_name, i.width, i.height))
          = ins.map (fun i => (i.file_name, i.width, i.height))
        ∧ (convert_to_coco ins).images.map (fun i => i.id) = List.range' 1 ins.length)
    ∧ (∀ (folder : String) (coco : Coco) (res : List LSTask),
        convert_to_labelstudio folder coco = some res → ∀ t ∈ res, t.result ≠ [])
    ∧ (∀ (coco : Coco) (tm : List (String × String)) (ups : List (String × List Region)),
        convert_coco_to_azure_uploads coco tm = some ups →
          ∀ p ∈ ups, Prod.snd p ≠ ([] : List Region)) := by
  refine ⟨fun ins => ?_, fun folder coco res heq => ?_, fun coco tm ups heq => ?_⟩
  · unfold convert_to_coco
    exact cocoLoop_images LABEL_INFO ins 1 1
  · unfold convert_to_labelstudio at heq
    cases hm : lsLoop folder (coco.images.map (fun i => (i.id, i)))
        (coco.categories.map (fun c => (c.id, c.name))) coco.anns [] with
    | none => rw [hm] at heq; exact Option.noConfusion heq
    | some m =>
      rw [hm] at heq
      have hres : m.map Prod.snd = res := by
        simpa using heq
      have hinv := lsLoop_invariant
        (fun m => ∀ p ∈ m, (Prod.snd p).result ≠ [])
        (fun m k r hm' => insertTask_ne_nil m k r hm')
        folder _ _ coco.anns [] m (by simp) hm
      intro t ht
      rw [← hres] at ht
      obtain ⟨p, hp, hpt⟩ := List.mem_map.mp ht
      exact hpt ▸ hinv p hp
  · unfold convert_coco_to_azure_uploads at heq
    exact azLoop_invariant (fun m => ∀ p ∈ m, Prod.snd p ≠ ([] : List Region))
      (fun m k r hm' => insertRegion_ne_nil m k r hm')
      tm _ _ coco.anns [] ups (by simp) heq

/-- C10 witness: on the two-detection example the labeling-tool output
exists and its single task has a nonempty result list. -/
theorem C10_outputs_presence_witness :
    convert_to_labelstudio "F" twoAnnCoco = some twoAnnTasks
    ∧ ∀ t ∈ twoAnnTasks, t.result ≠ [] :=
  ⟨twoAnnLS_eval, C10_outputs_presence.2.1 "F" twoAnnCoco twoAnnTasks twoAnnLS_eval⟩

/-- C7 amended: the code performs no dimension validation; for a zero
width or height the scaling is total and silently returns the degenerate
box with zero components along the zero axis. -/
theorem C7_no_dimension_check :
    (∀ (b : BoundingBox) (h : ℕ), normalizeBox b 0 h = (0, b.top * h, 0, b.height * h))
    ∧ (∀ (b : BoundingBox) (w : ℕ), normalizeBox b w 0 = (b.left * w, 0, b.width * w, 0)) := by
  constructor <;> intro b d <;> simp [normalizeBox]

end Thumb
